import Mathlib

/-!
Verification of the capture-and-transport firmware (src/code.ino).

The development shallowly embeds the pieces of the sketch that the claims
concern: the 44-byte WAV header builder `writeWavHeader`, the sample-capture
loop of `recordAudioWhileButtonHeld` together with its file finalisation,
the display formatter `minimizeForDisplay`, the request body built for the
chat endpoint, and one iteration of the top-level `loop` as an event trace.

Machine integers are modelled as `Nat` with explicit `% 4294967296`
(`uint32_t`) and `% 65536` (`uint16_t`) where the C code can wrap.
External effects (button reads, ADC reads, SD writes, network replies) are
supplied by environment records of oracle functions, and loops are embedded
with an explicit fuel that provably bounds their iteration count, so every
definition evaluates in the kernel.
-/

/-! ## Constants from the sketch -/

def SAMPLE_RATE : Nat := 16000

def MAX_DURATION_SEC : Nat := 10

def MAX_SAMPLES : Nat := SAMPLE_RATE * MAX_DURATION_SEC

/-! ## Container Writer: `writeWavHeader` (src/code.ino lines 495-529)

`u32le` is the little-endian byte splitting that the C code performs with
shifts and masks on a `uint32_t` value. -/

def u32le (x : Nat) : List Nat :=
  [x % 256, x / 256 % 256, x / 65536 % 256, x / 16777216 % 256]

/-- The 44 header bytes written by `writeWavHeader file sampleRate numSamples`.
Both parameters have C type `uint32_t`, hence the entry reductions modulo
4294967296; `chunkSize`, `byteRate` and the data-size field are computed in
`uint32_t` arithmetic exactly as in the source.  Tag bytes are the ASCII codes
of "RIFF", "WAVE", "fmt " and "data". -/
def wavHeader (sampleRate0 numSamples0 : Nat) : List Nat :=
  let sampleRate := sampleRate0 % 4294967296
  let numSamples := numSamples0 % 4294967296
  let chunkSize := (36 + numSamples * 2) % 4294967296
  let byteRate := sampleRate * 2 % 4294967296
  let dataSize := numSamples * 2 % 4294967296
  [82, 73, 70, 70] ++ u32le chunkSize ++ [87, 65, 86, 69] ++
    [102, 109, 116, 32] ++ [16, 0, 0, 0] ++ [1, 0] ++ [1, 0] ++
    u32le sampleRate ++ u32le byteRate ++ [2, 0] ++ [16, 0] ++
    [100, 97, 116, 97] ++ u32le dataSize

/-- Little-endian `u32` read at byte offset `off` of a byte list. -/
def u32at (l : List Nat) (off : Nat) : Nat :=
  l.getD off 0 + 256 * l.getD (off + 1) 0 + 65536 * l.getD (off + 2) 0 +
    16777216 * l.getD (off + 3) 0

/-- The header written out as one 44-element cons list, for cheap indexing. -/
lemma wavHeader_cons (sr n : Nat) :
    wavHeader sr n =
      82 :: 73 :: 70 :: 70 ::
      ((36 + n % 4294967296 * 2) % 4294967296 % 256) ::
      ((36 + n % 4294967296 * 2) % 4294967296 / 256 % 256) ::
      ((36 + n % 4294967296 * 2) % 4294967296 / 65536 % 256) ::
      ((36 + n % 4294967296 * 2) % 4294967296 / 16777216 % 256) ::
      87 :: 65 :: 86 :: 69 ::
      102 :: 109 :: 116 :: 32 ::
      16 :: 0 :: 0 :: 0 :: 1 :: 0 :: 1 :: 0 ::
      (sr % 4294967296 % 256) :: (sr % 4294967296 / 256 % 256) ::
      (sr % 4294967296 / 65536 % 256) :: (sr % 4294967296 / 16777216 % 256) ::
      (sr % 4294967296 * 2 % 4294967296 % 256) ::
      (sr % 4294967296 * 2 % 4294967296 / 256 % 256) ::
      (sr % 4294967296 * 2 % 4294967296 / 65536 % 256) ::
      (sr % 4294967296 * 2 % 4294967296 / 16777216 % 256) ::
      2 :: 0 :: 16 :: 0 ::
      100 :: 97 :: 116 :: 97 ::
      (n % 4294967296 * 2 % 4294967296 % 256) ::
      (n % 4294967296 * 2 % 4294967296 / 256 % 256) ::
      (n % 4294967296 * 2 % 4294967296 / 65536 % 256) ::
      (n % 4294967296 * 2 % 4294967296 / 16777216 % 256) :: [] := rfl

/-- C1: `writeWavHeader` emits exactly 44 bytes in the layout of spec section
4.3: the `u32` at offset 4 is `36 + 2*sampleCount`, the `u32` at offset 40 is
`2*sampleCount`, the `u32` at offset 28 is `sampleRate*2` (all little-endian,
stated below the `uint32` wrap bound), and the placeholder write
(`sampleCount = 0`) agrees with the patch write on every byte outside the two
count-dependent size fields, so the patch is a pure same-length overwrite. -/
theorem wavHeader_layout (sampleRate sampleCount : Nat)
    (h1 : 36 + 2 * sampleCount < 4294967296)
    (h2 : 2 * sampleRate < 4294967296) :
    (wavHeader sampleRate sampleCount).length = 44
    ∧ u32at (wavHeader sampleRate sampleCount) 4 = 36 + 2 * sampleCount
    ∧ u32at (wavHeader sampleRate sampleCount) 40 = 2 * sampleCount
    ∧ u32at (wavHeader sampleRate sampleCount) 28 = 2 * sampleRate
    ∧ (wavHeader sampleRate 0).length = (wavHeader sampleRate sampleCount).length
    ∧ ∀ i, i < 44 → i ∉ [4, 5, 6, 7, 40, 41, 42, 43] →
        (wavHeader sampleRate 0).getD i 0 = (wavHeader sampleRate sampleCount).getD i 0 := by
  refine ⟨?_, ?_, ?_, ?_, ?_, ?_⟩
  · rw [wavHeader_cons]; rfl
  · show u32at (wavHeader sampleRate sampleCount) 4 = _
    rw [wavHeader_cons]
    show (36 + sampleCount % 4294967296 * 2) % 4294967296 % 256
      + 256 * ((36 + sampleCount % 4294967296 * 2) % 4294967296 / 256 % 256)
      + 65536 * ((36 + sampleCount % 4294967296 * 2) % 4294967296 / 65536 % 256)
      + 16777216 * ((36 + sampleCount % 4294967296 * 2) % 4294967296 / 16777216 % 256)
      = 36 + 2 * sampleCount
    omega
  · show u32at (wavHeader sampleRate sampleCount) 40 = _
    rw [wavHeader_cons]
    show sampleCount % 4294967296 * 2 % 4294967296 % 256
      + 256 * (sampleCount % 4294967296 * 2 % 4294967296 / 256 % 256)
      + 65536 * (sampleCount % 4294967296 * 2 % 4294967296 / 65536 % 256)
      + 16777216 * (sampleCount % 4294967296 * 2 % 4294967296 / 16777216 % 256)
      = 2 * sampleCount
    omega
  · show u32at (wavHeader sampleRate sampleCount) 28 = _
    rw [wavHeader_cons]
    show sampleRate % 4294967296 * 2 % 4294967296 % 256
      + 256 * (sampleRate % 4294967296 * 2 % 4294967296 / 256 % 256)
      + 65536 * (sampleRate % 4294967296 * 2 % 4294967296 / 65536 % 256)
      + 16777216 * (sampleRate % 4294967296 * 2 % 4294967296 / 16777216 % 256)
      = 2 * sampleRate
    omega
  · rw [wavHeader_cons, wavHeader_cons]; rfl
  · intro i hi hmem
    rw [wavHeader_cons, wavHeader_cons]
    interval_cases i <;> first | rfl | exact absurd (by decide) hmem

theorem wavHeader_layout_witness :
    (36 + 2 * 5 < 4294967296) ∧ (2 * 16000 < 4294967296) ∧
    ((wavHeader 16000 5).length = 44
      ∧ u32at (wavHeader 16000 5) 4 = 36 + 2 * 5
      ∧ u32at (wavHeader 16000 5) 40 = 2 * 5
      ∧ u32at (wavHeader 16000 5) 28 = 2 * 16000
      ∧ (wavHeader 16000 0).length = (wavHeader 16000 5).length
      ∧ ∀ i, i < 44 → i ∉ [4, 5, 6, 7, 40, 41, 42, 43] →
          (wavHeader 16000 0).getD i 0 = (wavHeader 16000 5).getD i 0) :=
  ⟨by norm_num, by norm_num, wavHeader_layout 16000 5 (by norm_num) (by norm_num)⟩

/-! ## Audio Capture Engine: `recordAudioWhileButtonHeld` (src/code.ino lines 281-333)

The SD file is modelled as a byte list plus a write position; `fwrite`
overwrites at the position (extending at the end) and advances it, `fseek`
moves it, mirroring the Arduino `File` API as used by the sketch.

The hardware and storage are oracles indexed by the current value of
`samplesWritten`: since every loop iteration that does not terminate the loop
increments `samplesWritten` by exactly one, that value is also the iteration
counter, so `button k` is the level read at the top of iteration `k`,
`adc k` the raw ADC value sampled there, and `writeOk k` whether the 2-byte
write of sample `k` returned 2. -/

structure FileSt where
  data : List Nat
  pos : Nat
deriving DecidableEq

def fwrite (f : FileSt) (bs : List Nat) : FileSt :=
  { data := f.data.take f.pos ++ bs ++ f.data.drop (f.pos + bs.length),
    pos := f.pos + bs.length }

def fseek (f : FileSt) (p : Nat) : FileSt :=
  { data := f.data, pos := p }

structure RecordEnv where
  sdOk : Bool
  fileOpenOk : Bool
  button : Nat → Bool
  adc : Nat → Nat
  writeOk : Nat → Bool

structure LoopResult where
  samplesWritten : Nat
  nextSampleTime : Nat
  fileSt : FileSt
  writeFailed : Bool
deriving DecidableEq

/-- The two little-endian bytes of `(uint16_t)(raw << 4)` (src line 315). -/
def sampleBytes (raw : Nat) : List Nat :=
  [raw * 16 % 65536 % 256, raw * 16 % 65536 / 256]

/-- The capture loop (src lines 307-323).  The loop guard is
`button && samplesWritten < MAX_SAMPLES`; the fuel argument carries the bound
`MAX_SAMPLES - samplesWritten`, so fuel 0 is exactly the `samplesWritten`
half of the guard turning false (entry point passes fuel `MAX_SAMPLES` and
`samplesWritten = 0`).  Each pass first advances the scheduled deadline
`nextSampleTime` by the fixed interval `1000000 / SAMPLE_RATE` in `uint32_t`
arithmetic (the busy-wait on `micros()` has no effect on any modelled state),
then samples the ADC and appends the 2 sample bytes; a failed write breaks
out immediately with `writeFailed` set. -/
def captureLoop (env : RecordEnv) : Nat → Nat → Nat → FileSt → LoopResult
  | 0, samples, next, f =>
    { samplesWritten := samples, nextSampleTime := next, fileSt := f, writeFailed := false }
  | fuel + 1, samples, next, f =>
    if env.button samples = true then
      let nextDeadline := (next + 1000000 / SAMPLE_RATE) % 4294967296
      if env.writeOk samples = true then
        captureLoop env fuel (samples + 1) nextDeadline (fwrite f (sampleBytes (env.adc samples)))
      else
        { samplesWritten := samples, nextSampleTime := nextDeadline, fileSt := f, writeFailed := true }
    else
      { samplesWritten := samples, nextSampleTime := next, fileSt := f, writeFailed := false }

/-- The freshly opened recording file after the placeholder header write. -/
def initFile : FileSt :=
  fwrite { data := [], pos := 0 } (wavHeader SAMPLE_RATE 0)

structure RecordResult where
  returnValue : Bool
  fileOut : Option FileSt

/-- `recordAudioWhileButtonHeld` (src lines 281-333): bail out returning
false if the SD re-init or the file open fails; otherwise write the
placeholder header, run the capture loop from `micros()` reading `t0`, seek
back to offset 0, patch the header with the true count, close, and report
success iff strictly more than `SAMPLE_RATE/4` samples were written. -/
def recordAudioWhileButtonHeld (env : RecordEnv) (t0 : Nat) : RecordResult :=
  if env.sdOk = false then { returnValue := false, fileOut := none }
  else if env.fileOpenOk = false then { returnValue := false, fileOut := none }
  else
    let r := captureLoop env MAX_SAMPLES 0 t0 initFile
    let f2 := fwrite (fseek r.fileSt 0) (wavHeader SAMPLE_RATE r.samplesWritten)
    { returnValue := decide (r.samplesWritten > SAMPLE_RATE / 4), fileOut := some f2 }

/-- Samples written by the capture loop of a (non-bailed-out) call. -/
def loopedSamples (env : RecordEnv) (t0 : Nat) : Nat :=
  (captureLoop env MAX_SAMPLES 0 t0 initFile).samplesWritten

/-- Environment where the button is held for exactly `k` polls, every write
succeeds, and the SD card and file behave. -/
def envHeld (k : Nat) : RecordEnv :=
  { sdOk := true, fileOpenOk := true,
    button := fun i => decide (i < k),
    adc := fun _ => 0,
    writeOk := fun _ => true }

/-- Bytes appended by `len` consecutive successful sample writes starting at
sample index `s`. -/
def capturedBytes (adc : Nat → Nat) : Nat → Nat → List Nat
  | _, 0 => []
  | s, len + 1 => sampleBytes (adc s) ++ capturedBytes adc (s + 1) len

/-- Environment for the write-failure scenario: button always held, writes of
samples 0 and 1 succeed, the write of sample 2 fails. -/
def envW : RecordEnv :=
  { sdOk := true, fileOpenOk := true, button := fun _ => true,
    adc := fun _ => 0, writeOk := fun i => decide (i < 2) }

lemma sampleBytes_length (raw : Nat) : (sampleBytes raw).length = 2 := rfl

lemma wavHeader_length (sr n : Nat) : (wavHeader sr n).length = 44 := by
  rw [wavHeader_cons]; rfl

lemma fwrite_append (f : FileSt) (bs : List Nat) (h : f.pos = f.data.length) :
    fwrite f bs = { data := f.data ++ bs, pos := f.data.length + bs.length } := by
  unfold fwrite
  rw [h, List.take_length, List.drop_eq_nil_of_le (Nat.le_add_right _ _), List.append_nil]

/-- C3: in the capture loop the next deadline is always the previous deadline
plus the fixed interval `1000000 / SAMPLE_RATE` (in `uint32` arithmetic), never
the current clock reading, so after `n` executed iterations the scheduled
deadline is the initial deadline plus `n` times the interval: error does not
accumulate.  (An iteration that breaks on a failed write has already advanced
the deadline, hence the `writeFailed` adjustment.) -/
theorem capture_deadline_no_drift (env : RecordEnv) (fuel samples next : Nat) (f : FileSt)
    (hnext : next < 4294967296) :
    samples ≤ (captureLoop env fuel samples next f).samplesWritten
    ∧ (captureLoop env fuel samples next f).nextSampleTime =
        (next + ((captureLoop env fuel samples next f).samplesWritten - samples
          + (if (captureLoop env fuel samples next f).writeFailed = true then 1 else 0))
          * (1000000 / SAMPLE_RATE)) % 4294967296 := by
  induction fuel generalizing samples next f with
  | zero =>
    simp only [captureLoop]
    norm_num [SAMPLE_RATE]
    omega
  | succ fuel ih =>
    by_cases hb : env.button samples = true
    · by_cases hw : env.writeOk samples = true
      · have hI : (1000000 : Nat) / SAMPLE_RATE = 62 := rfl
        have hstep : captureLoop env (fuel + 1) samples next f =
            captureLoop env fuel (samples + 1) ((next + 62) % 4294967296)
              (fwrite f (sampleBytes (env.adc samples))) := by
          simp only [captureLoop, hb, hw, if_true]
          rw [hI]
        obtain ⟨H1, H2⟩ := ih (samples + 1) ((next + 62) % 4294967296)
          (fwrite f (sampleBytes (env.adc samples))) (Nat.mod_lt _ (by norm_num))
        rw [hstep]
        refine ⟨by omega, ?_⟩
        rw [H2, hI]
        cases hF : (captureLoop env fuel (samples + 1)
            ((next + 62) % 4294967296)
            (fwrite f (sampleBytes (env.adc samples)))).writeFailed <;>
          simp only [Bool.false_eq_true, if_false, if_true] <;> omega
      · have hw' : env.writeOk samples = false := by
          cases hW : env.writeOk samples
          · rfl
          · exact absurd hW hw
        simp only [captureLoop, hb, hw', if_true, Bool.false_eq_true, if_false]
        have hI : (1000000 : Nat) / SAMPLE_RATE = 62 := rfl
        rw [hI]
        refine ⟨le_rfl, ?_⟩
        omega
    · have hb' : env.button samples = false := by
        cases hB : env.button samples
        · rfl
        · exact absurd hB hb
      simp only [captureLoop, hb', Bool.false_eq_true, if_false]
      have hI : (1000000 : Nat) / SAMPLE_RATE = 62 := rfl
      rw [hI]
      refine ⟨le_rfl, ?_⟩
      omega

theorem capture_deadline_no_drift_witness :
    ((0 : Nat) < 4294967296) ∧
    (0 ≤ (captureLoop (envHeld 1) 2 0 0 initFile).samplesWritten
      ∧ (captureLoop (envHeld 1) 2 0 0 initFile).nextSampleTime =
          (0 + ((captureLoop (envHeld 1) 2 0 0 initFile).samplesWritten - 0
            + (if (captureLoop (envHeld 1) 2 0 0 initFile).writeFailed = true then 1 else 0))
            * (1000000 / SAMPLE_RATE)) % 4294967296) :=
  ⟨by norm_num, capture_deadline_no_drift (envHeld 1) 2 0 0 initFile (by norm_num)⟩

lemma captureLoop_held_samples (k : Nat) (hk : k ≤ MAX_SAMPLES) :
    ∀ fuel samples next f, fuel + samples = MAX_SAMPLES → samples ≤ k →
      (captureLoop (envHeld k) fuel samples next f).samplesWritten = k := by
  intro fuel
  induction fuel with
  | zero =>
    intro samples next f hf hs
    simp only [captureLoop]
    omega
  | succ fuel ih =>
    intro samples next f hf hs
    rcases Nat.lt_or_ge samples k with h | h
    · have hb : (envHeld k).button samples = true := by
        simp [envHeld, h]
      have hw : (envHeld k).writeOk samples = true := rfl
      simp only [captureLoop, hb, hw, if_true]
      exact ih (samples + 1) _ _ (by omega) (by omega)
    · have hb : (envHeld k).button samples = false := by
        simp [envHeld]; omega
      simp only [captureLoop, hb, Bool.false_eq_true, if_false]
      omega

/-- C2: when the SD card re-initialisation and the file open succeed, the
call reports success exactly when the loop wrote strictly more than
`SAMPLE_RATE/4` samples; with the button held for exactly `SAMPLE_RATE/4`
polls (all writes succeeding) the capture is reported failed, and with one
more poll it is reported successful. -/
theorem record_success_iff (env : RecordEnv) (t0 : Nat)
    (hsd : env.sdOk = true) (hopen : env.fileOpenOk = true) :
    ((recordAudioWhileButtonHeld env t0).returnValue = true ↔
        loopedSamples env t0 > SAMPLE_RATE / 4)
    ∧ loopedSamples (envHeld (SAMPLE_RATE / 4)) t0 = SAMPLE_RATE / 4
    ∧ (recordAudioWhileButtonHeld (envHeld (SAMPLE_RATE / 4)) t0).returnValue = false
    ∧ loopedSamples (envHeld (SAMPLE_RATE / 4 + 1)) t0 = SAMPLE_RATE / 4 + 1
    ∧ (recordAudioWhileButtonHeld (envHeld (SAMPLE_RATE / 4 + 1)) t0).returnValue = true := by
  have h4000 : loopedSamples (envHeld (SAMPLE_RATE / 4)) t0 = SAMPLE_RATE / 4 :=
    captureLoop_held_samples (SAMPLE_RATE / 4)
      (by norm_num [SAMPLE_RATE, MAX_SAMPLES, MAX_DURATION_SEC])
      MAX_SAMPLES 0 t0 initFile (by omega) (by omega)
  have h4001 : loopedSamples (envHeld (SAMPLE_RATE / 4 + 1)) t0 = SAMPLE_RATE / 4 + 1 :=
    captureLoop_held_samples (SAMPLE_RATE / 4 + 1)
      (by norm_num [SAMPLE_RATE, MAX_SAMPLES, MAX_DURATION_SEC])
      MAX_SAMPLES 0 t0 initFile (by omega) (by omega)
  refine ⟨?_, h4000, ?_, h4001, ?_⟩
  · simp [recordAudioWhileButtonHeld, hsd, hopen, loopedSamples]
  · simp only [recordAudioWhileButtonHeld, loopedSamples] at h4000 ⊢
    simp only [envHeld] at h4000 ⊢
    simp only [Bool.true_eq_false, if_false, h4000]
    simp
  · simp only [recordAudioWhileButtonHeld, loopedSamples] at h4001 ⊢
    simp only [envHeld] at h4001 ⊢
    simp only [Bool.true_eq_false, if_false, h4001]
    simp

theorem record_success_iff_witness :
    ((envHeld 1).sdOk = true) ∧ ((envHeld 1).fileOpenOk = true) ∧
    (((recordAudioWhileButtonHeld (envHeld 1) 0).returnValue = true ↔
        loopedSamples (envHeld 1) 0 > SAMPLE_RATE / 4)
      ∧ loopedSamples (envHeld (SAMPLE_RATE / 4)) 0 = SAMPLE_RATE / 4
      ∧ (recordAudioWhileButtonHeld (envHeld (SAMPLE_RATE / 4)) 0).returnValue = false
      ∧ loopedSamples (envHeld (SAMPLE_RATE / 4 + 1)) 0 = SAMPLE_RATE / 4 + 1
      ∧ (recordAudioWhileButtonHeld (envHeld (SAMPLE_RATE / 4 + 1)) 0).returnValue = true) :=
  ⟨rfl, rfl, record_success_iff (envHeld 1) 0 rfl rfl⟩

lemma initFile_pos_eq : initFile.pos = initFile.data.length := by
  rw [initFile, fwrite]
  simp [wavHeader_length]

lemma initFile_data_eq : initFile.data = wavHeader SAMPLE_RATE 0 := by
  rw [initFile, fwrite]
  simp

lemma captureLoop_file_spec (env : RecordEnv) :
    ∀ fuel samples next f, f.pos = f.data.length →
      (captureLoop env fuel samples next f).fileSt.data =
          f.data ++ capturedBytes env.adc samples
            ((captureLoop env fuel samples next f).samplesWritten - samples)
      ∧ (captureLoop env fuel samples next f).fileSt.pos =
          (captureLoop env fuel samples next f).fileSt.data.length
      ∧ samples ≤ (captureLoop env fuel samples next f).samplesWritten := by
  intro fuel
  induction fuel with
  | zero =>
    intro samples next f h
    simp [captureLoop, capturedBytes, h]
  | succ fuel ih =>
    intro samples next f h
    by_cases hb : env.button samples = true
    · by_cases hw : env.writeOk samples = true
      · have hstep : captureLoop env (fuel + 1) samples next f =
            captureLoop env fuel (samples + 1) ((next + 1000000 / SAMPLE_RATE) % 4294967296)
              (fwrite f (sampleBytes (env.adc samples))) := by
          simp only [captureLoop, hb, hw, if_true]
        have hfa : fwrite f (sampleBytes (env.adc samples)) =
            { data := f.data ++ sampleBytes (env.adc samples),
              pos := f.data.length + (sampleBytes (env.adc samples)).length } :=
          fwrite_append f _ h
        have h' : (fwrite f (sampleBytes (env.adc samples))).pos =
            (fwrite f (sampleBytes (env.adc samples))).data.length := by
          rw [hfa]
          simp
        obtain ⟨H1, H2, H3⟩ := ih (samples + 1)
          ((next + 1000000 / SAMPLE_RATE) % 4294967296)
          (fwrite f (sampleBytes (env.adc samples))) h'
        rw [hstep]
        refine ⟨?_, H2, by omega⟩
        have hdata : (fwrite f (sampleBytes (env.adc samples))).data =
            f.data ++ sampleBytes (env.adc samples) := by
          rw [hfa]
        have hsub : (captureLoop env fuel (samples + 1)
            ((next + 1000000 / SAMPLE_RATE) % 4294967296)
            (fwrite f (sampleBytes (env.adc samples)))).samplesWritten - samples =
            ((captureLoop env fuel (samples + 1)
              ((next + 1000000 / SAMPLE_RATE) % 4294967296)
              (fwrite f (sampleBytes (env.adc samples)))).samplesWritten - (samples + 1)) + 1 := by
          omega
        rw [H1, hdata, hsub]
        simp [capturedBytes]
      · have hw' : env.writeOk samples = false := by
          cases hW : env.writeOk samples
          · rfl
          · exact absurd hW hw
        simp [captureLoop, hb, hw', capturedBytes, h]
    · have hb' : env.button samples = false := by
        cases hB : env.button samples
        · rfl
        · exact absurd hB hb
      simp [captureLoop, hb', capturedBytes, h]

lemma captureLoop_break (env : RecordEnv) (k : Nat) :
    ∀ fuel samples next f, fuel + samples = MAX_SAMPLES → samples ≤ k → k < MAX_SAMPLES →
      (∀ i, samples ≤ i → i < k → env.button i = true ∧ env.writeOk i = true) →
      env.button k = true → env.writeOk k = false →
      (captureLoop env fuel samples next f).samplesWritten = k
      ∧ (captureLoop env fuel samples next f).writeFailed = true := by
  intro fuel
  induction fuel with
  | zero =>
    intro samples next f hf hs hk hpre hbk hwk
    omega
  | succ fuel ih =>
    intro samples next f hf hs hk hpre hbk hwk
    rcases Nat.lt_or_ge samples k with h | h
    · have hb := (hpre samples le_rfl h).1
      have hw := (hpre samples le_rfl h).2
      simp only [captureLoop, hb, hw, if_true]
      exact ih (samples + 1) _ _ (by omega) (by omega) hk
        (fun i h1 h2 => hpre i (by omega) h2) hbk hwk
    · have hsk : samples = k := by omega
      subst hsk
      simp [captureLoop, hbk, hwk]

/-- C4: under a successful SD re-init and file open, the finalised recording
file always consists of the header patched with the true count of samples
actually written, followed by exactly those samples' bytes, with the write
position left at 44 after the in-place header rewrite at offset 0 — also when
the loop was aborted by a failed write; and if the writes of samples
`0..k-1` succeed with the button held but the write of sample `k` fails, the
loop stops at exactly `k` samples with `writeFailed` set, so the captured
audio up to the failure is finalised, not discarded. -/
theorem record_finalizes_header (env : RecordEnv) (t0 : Nat)
    (hsd : env.sdOk = true) (hopen : env.fileOpenOk = true) :
    (recordAudioWhileButtonHeld env t0).fileOut =
      some { data := wavHeader SAMPLE_RATE (loopedSamples env t0)
                      ++ capturedBytes env.adc 0 (loopedSamples env t0),
             pos := 44 }
    ∧ ∀ k, k < MAX_SAMPLES →
        (∀ i, i < k → env.button i = true ∧ env.writeOk i = true) →
        env.button k = true → env.writeOk k = false →
        loopedSamples env t0 = k
        ∧ (captureLoop env MAX_SAMPLES 0 t0 initFile).writeFailed = true := by
  constructor
  · obtain ⟨H1, H2, H3⟩ := captureLoop_file_spec env MAX_SAMPLES 0 t0 initFile initFile_pos_eq
    simp only [recordAudioWhileButtonHeld, hsd, hopen, Bool.true_eq_false, if_false,
      loopedSamples]
    rw [fwrite, fseek]
    simp only [List.take_zero, List.nil_append, Nat.zero_add, Nat.sub_zero] at H1 ⊢
    rw [H1, initFile_data_eq]
    rw [wavHeader_length]
    rw [show (44 : Nat) = (wavHeader SAMPLE_RATE 0).length from (wavHeader_length _ _).symm]
    rw [List.drop_left]
  · intro k hk hpre hbk hwk
    have := captureLoop_break env k MAX_SAMPLES 0 t0 initFile (by omega) (by omega) hk
      (fun i _ h2 => hpre i h2) hbk hwk
    exact ⟨this.1, this.2⟩

theorem record_finalizes_header_witness :
    (envW.sdOk = true) ∧ (envW.fileOpenOk = true) ∧
    ((recordAudioWhileButtonHeld envW 0).fileOut =
        some { data := wavHeader SAMPLE_RATE (loopedSamples envW 0)
                        ++ capturedBytes envW.adc 0 (loopedSamples envW 0),
               pos := 44 }
      ∧ ∀ k, k < MAX_SAMPLES →
          (∀ i, i < k → envW.button i = true ∧ envW.writeOk i = true) →
          envW.button k = true → envW.writeOk k = false →
          loopedSamples envW 0 = k
          ∧ (captureLoop envW MAX_SAMPLES 0 0 initFile).writeFailed = true) :=
  ⟨rfl, rfl, record_finalizes_header envW 0 rfl rfl⟩

/-! ## Display Formatter: `minimizeForDisplay` (src/code.ino lines 541-551)

Arduino `String` operations are modelled on `List Char`.  `String::replace`
scans left to right, replaces each occurrence of the pattern and resumes
scanning right after the inserted replacement; every scanning step consumes
at least one input character, so the input length is always sufficient fuel
and `replaceAll` passes exactly that. -/

/-- Prefix test on character lists (the position-wise comparison performed by
`String::replace` and `String::indexOf`). -/
def isPrefixChars : List Char → List Char → Bool
  | [], _ => true
  | _ :: _, [] => false
  | p :: ps, c :: cs => decide (p = c) && isPrefixChars ps cs

/-- Occurrence test: `s.indexOf(pat) >= 0` in the sketch. -/
def containsPat (pat : List Char) : List Char → Bool
  | [] => isPrefixChars pat []
  | c :: cs => isPrefixChars pat (c :: cs) || containsPat pat cs

def replaceAllFuel (pat rep : List Char) : Nat → List Char → List Char
  | 0, s => s
  | fuel + 1, s =>
    match s with
    | [] => []
    | c :: cs =>
      if isPrefixChars pat (c :: cs) = true then
        rep ++ replaceAllFuel pat rep fuel (cs.drop (pat.length - 1))
      else
        c :: replaceAllFuel pat rep fuel cs

/-- Arduino `String::replace(find, replace)` (a no-op for an empty `find`). -/
def replaceAll (pat rep s : List Char) : List Char :=
  if pat.isEmpty = true then s else replaceAllFuel pat rep s.length s

/-- The `while (s.indexOf("  ") >= 0) s.replace("  ", " ");` loop.  Each
executed pass strictly shortens the string (`replaceAll_doubleSpace_lt`
below), so the input length bounds the number of passes; `collapseSpaces`
enters with exactly that fuel, hence the loop always exits through its
guard, never by fuel exhaustion. -/
def collapseLoopFuel : Nat → List Char → List Char
  | 0, s => s
  | fuel + 1, s =>
    if containsPat [' ', ' '] s = true then
      collapseLoopFuel fuel (replaceAll [' ', ' '] [' '] s)
    else s

def collapseSpaces (s : List Char) : List Char :=
  collapseLoopFuel s.length s

/-- Whitespace normalisation inside `minimizeForDisplay`: carriage returns
and line feeds replaced by single spaces, then the double-space collapse. -/
def normalizedText (text : List Char) : List Char :=
  collapseSpaces (replaceAll ['\n'] [' '] (replaceAll ['\r'] [' '] text))

/-- `minimizeForDisplay` (src lines 541-551): normalise whitespace, then if
the result exceeds 200 characters keep the first 197 and append `...`. -/
def minimizeForDisplay (text : List Char) : List Char :=
  if 200 < (normalizedText text).length then
    (normalizedText text).take 197 ++ ['.', '.', '.']
  else normalizedText text

lemma replaceAllFuel_single (a b : Char) :
    ∀ fuel s, s.length ≤ fuel →
      replaceAllFuel [a] [b] fuel s = s.map fun c => if c = a then b else c := by
  intro fuel
  induction fuel with
  | zero =>
    intro s hs
    have : s = [] := List.eq_nil_of_length_eq_zero (by omega)
    subst this
    rfl
  | succ fuel ih =>
    intro s hs
    match s with
    | [] => rfl
    | c :: cs =>
      by_cases hac : a = c
      · subst hac
        have hcond : isPrefixChars [a] (a :: cs) = true := by
          simp [isPrefixChars]
        simp only [replaceAllFuel, hcond, if_true]
        simp only [List.length_cons] at hs
        have hdrop : List.drop ([a].length - 1) cs = cs := by
          simp
        rw [hdrop, ih cs (by omega)]
        simp
      · have h1 : isPrefixChars [a] (c :: cs) = false := by
          simp [isPrefixChars, hac]
        simp only [replaceAllFuel, h1, Bool.false_eq_true, if_false]
        simp only [List.length_cons] at hs
        rw [ih cs (by omega)]
        simp only [List.map_cons]
        rw [if_neg fun h => hac h.symm]

lemma replaceAll_single (a b : Char) (s : List Char) :
    replaceAll [a] [b] s = s.map fun c => if c = a then b else c :=
  replaceAllFuel_single a b s.length s le_rfl

lemma not_mem_replaceAll_single (a b : Char) (hba : b ≠ a) (s : List Char) :
    a ∉ replaceAll [a] [b] s := by
  rw [replaceAll_single]
  intro hmem
  obtain ⟨c, _, hc⟩ := List.mem_map.mp hmem
  by_cases h : c = a
  · rw [if_pos h] at hc
    exact hba hc
  · rw [if_neg h] at hc
    exact h hc

lemma mem_replaceAll_single (a b x : Char) (s : List Char)
    (hmem : x ∈ replaceAll [a] [b] s) : x = b ∨ x ∈ s := by
  rw [replaceAll_single] at hmem
  obtain ⟨c, hcs, hc⟩ := List.mem_map.mp hmem
  by_cases h : c = a
  · rw [if_pos h] at hc
    exact Or.inl hc.symm
  · rw [if_neg h] at hc
    exact Or.inr (hc ▸ hcs)

lemma replaceAll_single_noop (a b : Char) (s : List Char) (h : a ∉ s) :
    replaceAll [a] [b] s = s := by
  rw [replaceAll_single]
  conv_rhs => rw [← List.map_id s]
  refine List.map_congr_left fun c hc => ?_
  rw [if_neg, id]
  intro hca
  exact h (hca ▸ hc)

lemma bool_eq_false {b : Bool} (h : ¬ b = true) : b = false := by
  cases b
  · rfl
  · exact absurd rfl h

lemma mem_replaceAllFuel (pat rep : List Char) :
    ∀ fuel s x, x ∈ replaceAllFuel pat rep fuel s → x ∈ rep ∨ x ∈ s := by
  intro fuel
  induction fuel with
  | zero => intro s x hx; exact Or.inr hx
  | succ fuel ih =>
    intro s x hx
    match s with
    | [] =>
      simp only [replaceAllFuel] at hx
      exact Or.inr hx
    | c :: cs =>
      by_cases hp : isPrefixChars pat (c :: cs) = true
      · simp only [replaceAllFuel, hp, if_true] at hx
        rcases List.mem_append.mp hx with h | h
        · exact Or.inl h
        · rcases ih _ x h with h2 | h2
          · exact Or.inl h2
          · exact Or.inr (List.mem_cons_of_mem c (List.drop_subset _ _ h2))
      · have hp' := bool_eq_false hp
        simp only [replaceAllFuel, hp', Bool.false_eq_true, if_false] at hx
        rcases List.mem_cons.mp hx with h | h
        · exact Or.inr (h ▸ List.mem_cons_self c cs)
        · rcases ih _ x h with h2 | h2
          · exact Or.inl h2
          · exact Or.inr (List.mem_cons_of_mem c h2)

lemma replaceAllFuel_doubleSpace_le :
    ∀ fuel s, (replaceAllFuel [' ', ' '] [' '] fuel s).length ≤ s.length := by
  intro fuel
  induction fuel with
  | zero => intro s; exact le_rfl
  | succ fuel ih =>
    intro s
    match s with
    | [] => simp [replaceAllFuel]
    | c :: cs =>
      by_cases hp : isPrefixChars [' ', ' '] (c :: cs) = true
      · simp only [replaceAllFuel, hp, if_true]
        have hdix : (([' ', ' '] : List Char).length - 1) = 1 := rfl
        rw [hdix]
        have h1 := ih (cs.drop 1)
        have h2 : (cs.drop 1).length ≤ cs.length := by
          simp [List.length_drop]
        simp only [List.length_append, List.length_cons, List.length_nil]
        omega
      · have hp' := bool_eq_false hp
        simp only [replaceAllFuel, hp', Bool.false_eq_true, if_false]
        have h1 := ih cs
        simp only [List.length_cons]
        omega

lemma replaceAllFuel_doubleSpace_lt :
    ∀ fuel s, containsPat [' ', ' '] s = true → s.length ≤ fuel →
      (replaceAllFuel [' ', ' '] [' '] fuel s).length < s.length := by
  intro fuel
  induction fuel with
  | zero =>
    intro s hc hs
    have : s = [] := List.eq_nil_of_length_eq_zero (by omega)
    subst this
    exact absurd hc (by decide)
  | succ fuel ih =>
    intro s hc hs
    match s with
    | [] => exact absurd hc (by decide)
    | c :: cs =>
      by_cases hp : isPrefixChars [' ', ' '] (c :: cs) = true
      · match cs with
        | [] =>
          exact absurd hp (by simp [isPrefixChars])
        | c2 :: cs2 =>
          simp only [replaceAllFuel, hp, if_true]
          have hdix : (([' ', ' '] : List Char).length - 1) = 1 := rfl
          rw [hdix]
          have h1 := replaceAllFuel_doubleSpace_le fuel ((c2 :: cs2).drop 1)
          simp only [List.length_append, List.length_cons, List.length_nil,
            List.length_drop] at h1 ⊢
          omega
      · have hp' := bool_eq_false hp
        have hc' : containsPat [' ', ' '] cs = true := by
          rw [containsPat, hp', Bool.false_or] at hc
          exact hc
        simp only [replaceAllFuel, hp', Bool.false_eq_true, if_false]
        have h1 := ih cs hc' (by simp only [List.length_cons] at hs; omega)
        simp only [List.length_cons]
        omega

lemma replaceAll_doubleSpace_lt (s : List Char) (h : containsPat [' ', ' '] s = true) :
    (replaceAll [' ', ' '] [' '] s).length < s.length :=
  replaceAllFuel_doubleSpace_lt s.length s h le_rfl

lemma collapseLoopFuel_no_double :
    ∀ fuel s, s.length ≤ fuel → containsPat [' ', ' '] (collapseLoopFuel fuel s) = false := by
  intro fuel
  induction fuel with
  | zero =>
    intro s hs
    have : s = [] := List.eq_nil_of_length_eq_zero (by omega)
    subst this
    rfl
  | succ fuel ih =>
    intro s hs
    by_cases hc : containsPat [' ', ' '] s = true
    · simp only [collapseLoopFuel, hc, if_true]
      exact ih _ (by have := replaceAll_doubleSpace_lt s hc; omega)
    · simp only [collapseLoopFuel, bool_eq_false hc, Bool.false_eq_true, if_false]

lemma mem_collapseLoopFuel :
    ∀ fuel s x, x ∈ collapseLoopFuel fuel s → x ∈ s ∨ x = ' ' := by
  intro fuel
  induction fuel with
  | zero => intro s x hx; exact Or.inl hx
  | succ fuel ih =>
    intro s x hx
    by_cases hc : containsPat [' ', ' '] s = true
    · simp only [collapseLoopFuel, hc, if_true] at hx
      rcases ih _ x hx with h | h
      · have : x ∈ replaceAllFuel [' ', ' '] [' '] s.length s := h
        rcases mem_replaceAllFuel [' ', ' '] [' '] s.length s x this with h2 | h2
        · exact Or.inr (List.mem_singleton.mp h2)
        · exact Or.inl h2
      · exact Or.inr h
    · simp only [collapseLoopFuel, bool_eq_false hc, Bool.false_eq_true, if_false] at hx
      exact Or.inl hx

lemma collapseLoopFuel_noop (s : List Char) (h : containsPat [' ', ' '] s = false) :
    ∀ fuel, collapseLoopFuel fuel s = s := by
  intro fuel
  cases fuel
  · rfl
  · simp [collapseLoopFuel, h]

lemma isPrefixChars_of_take (pat : List Char) :
    ∀ (n : Nat) (s : List Char),
      isPrefixChars pat (s.take n) = true → isPrefixChars pat s = true := by
  induction pat with
  | nil => intro n s _; rfl
  | cons p ps ih =>
    intro n s h
    match s with
    | [] =>
      rw [List.take_nil] at h
      exact h
    | c :: cs =>
      match n with
      | 0 => exact absurd h (by simp [isPrefixChars])
      | n + 1 =>
        rw [List.take_succ_cons] at h
        rw [isPrefixChars] at h ⊢
        simp only [Bool.and_eq_true] at h
        obtain ⟨h1, h2⟩ := h
        rw [h1, ih n cs h2]
        rfl

lemma containsPat_of_take (pat : List Char) :
    ∀ (n : Nat) (s : List Char),
      containsPat pat (s.take n) = true → containsPat pat s = true := by
  intro n s
  induction s generalizing n with
  | nil =>
    rw [List.take_nil]
    exact id
  | cons c cs ih =>
    intro h
    match n with
    | 0 =>
      rw [List.take_zero] at h
      match pat with
      | [] => rfl
      | p :: ps => exact absurd h (by simp [containsPat, isPrefixChars])
    | n + 1 =>
      rw [List.take_succ_cons] at h
      rw [containsPat] at h
      simp only [Bool.or_eq_true] at h
      rcases h with h1 | h1
      · have := isPrefixChars_of_take pat (n + 1) (c :: cs) (by rw [List.take_succ_cons]; exact h1)
        rw [containsPat, this]
        rfl
      · have := ih n h1
        rw [containsPat, this]
        simp

lemma containsPat_append_dots (t : List Char)
    (h : containsPat [' ', ' '] t = false) :
    containsPat [' ', ' '] (t ++ ['.', '.', '.']) = false := by
  induction t with
  | nil => decide
  | cons c cs ih =>
    match cs with
    | [] =>
      show containsPat [' ', ' '] (c :: ['.', '.', '.']) = false
      have h1 : isPrefixChars [' ', ' '] (c :: ['.', '.', '.']) = false := by
        simp [isPrefixChars]
      simp only [containsPat, h1, Bool.false_or]
      decide
    | c2 :: cs2 =>
      simp only [List.cons_append]
      rw [containsPat]
      rw [containsPat] at h
      have e1 : isPrefixChars [' ', ' '] (c :: c2 :: (cs2 ++ ['.', '.', '.'])) =
          isPrefixChars [' ', ' '] (c :: c2 :: cs2) := by
        simp [isPrefixChars]
      have h1 : isPrefixChars [' ', ' '] (c :: c2 :: cs2) = false := by
        cases hP : isPrefixChars [' ', ' '] (c :: c2 :: cs2)
        · rfl
        · rw [hP] at h; simp at h
      have h2 : containsPat [' ', ' '] (c2 :: cs2) = false := by
        cases hC : containsPat [' ', ' '] (c2 :: cs2)
        · rfl
        · rw [hC] at h; simp at h
      rw [e1, h1, Bool.false_or]
      have := ih h2
      simpa using this

/-- Every output of `minimizeForDisplay` is fully normalised: free of carriage
returns, line feeds and double spaces, and at most 200 characters long. -/
lemma minimizeForDisplay_normalized (x : List Char) :
    ('\r') ∉ minimizeForDisplay x ∧ ('\n') ∉ minimizeForDisplay x
    ∧ containsPat [' ', ' '] (minimizeForDisplay x) = false
    ∧ (minimizeForDisplay x).length ≤ 200 := by
  have hcr2 : '\r' ∉ replaceAll ['\n'] [' '] (replaceAll ['\r'] [' '] x) := by
    intro hmem
    rcases mem_replaceAll_single '\n' ' ' '\r' _ hmem with h | h
    · exact absurd h (by decide)
    · exact not_mem_replaceAll_single '\r' ' ' (by decide) x h
  have hlf2 : '\n' ∉ replaceAll ['\n'] [' '] (replaceAll ['\r'] [' '] x) :=
    not_mem_replaceAll_single '\n' ' ' (by decide) _
  have hcr3 : '\r' ∉ normalizedText x := by
    intro hmem
    simp only [normalizedText, collapseSpaces] at hmem
    rcases mem_collapseLoopFuel _ _ '\r' hmem with h | h
    · exact hcr2 h
    · exact absurd h (by decide)
  have hlf3 : '\n' ∉ normalizedText x := by
    intro hmem
    simp only [normalizedText, collapseSpaces] at hmem
    rcases mem_collapseLoopFuel _ _ '\n' hmem with h | h
    · exact hlf2 h
    · exact absurd h (by decide)
  have hds3 : containsPat [' ', ' '] (normalizedText x) = false := by
    simp only [normalizedText, collapseSpaces]
    exact collapseLoopFuel_no_double _ _ le_rfl
  by_cases hL : 200 < (normalizedText x).length
  · have hmfd : minimizeForDisplay x = (normalizedText x).take 197 ++ ['.', '.', '.'] := by
      simp only [minimizeForDisplay]
      rw [if_pos hL]
    refine ⟨?_, ?_, ?_, ?_⟩
    · rw [hmfd]
      intro hmem
      rcases List.mem_append.mp hmem with h | h
      · exact hcr3 (List.take_subset _ _ h)
      · exact absurd h (by decide)
    · rw [hmfd]
      intro hmem
      rcases List.mem_append.mp hmem with h | h
      · exact hlf3 (List.take_subset _ _ h)
      · exact absurd h (by decide)
    · rw [hmfd]
      apply containsPat_append_dots
      cases hT : containsPat [' ', ' '] ((normalizedText x).take 197)
      · rfl
      · exact absurd (containsPat_of_take _ 197 _ hT) (by simp [hds3])
    · rw [hmfd]
      simp only [List.length_append, List.length_take, List.length_cons, List.length_nil]
      omega
  · have hmfd : minimizeForDisplay x = normalizedText x := by
      simp only [minimizeForDisplay]
      rw [if_neg hL]
    rw [hmfd]
    exact ⟨hcr3, hlf3, hds3, by omega⟩

/-- C5: `minimizeForDisplay` is idempotent on its own output: its result
contains no carriage return, no line feed and no double space and is at most
200 characters long, so a second application changes nothing. -/
theorem minimize_idempotent (x : List Char) :
    minimizeForDisplay (minimizeForDisplay x) = minimizeForDisplay x := by
  obtain ⟨hcr, hlf, hds, hlen⟩ := minimizeForDisplay_normalized x
  have hnorm : normalizedText (minimizeForDisplay x) = minimizeForDisplay x := by
    simp only [normalizedText]
    rw [replaceAll_single_noop '\r' ' ' _ hcr]
    rw [replaceAll_single_noop '\n' ' ' _ hlf]
    simp only [collapseSpaces]
    exact collapseLoopFuel_noop _ hds _
  have hunf : minimizeForDisplay (minimizeForDisplay x) =
      if 200 < (normalizedText (minimizeForDisplay x)).length then
        (normalizedText (minimizeForDisplay x)).take 197 ++ ['.', '.', '.']
      else normalizedText (minimizeForDisplay x) := rfl
  rw [hunf, hnorm, if_neg (by omega)]

/-- C6: whenever the normalised text (carriage returns and line feeds turned
into spaces, double spaces collapsed) exceeds 200 characters, the result is
exactly its first 197 characters followed by a three-character ellipsis, has
length exactly 200, and contains no two consecutive spaces. -/
theorem minimize_truncates_long (x : List Char)
    (h : 200 < (normalizedText x).length) :
    minimizeForDisplay x = (normalizedText x).take 197 ++ ['.', '.', '.']
    ∧ (minimizeForDisplay x).length = 200
    ∧ containsPat [' ', ' '] (minimizeForDisplay x) = false := by
  have hmfd : minimizeForDisplay x = (normalizedText x).take 197 ++ ['.', '.', '.'] := by
    simp only [minimizeForDisplay]
    rw [if_pos h]
  refine ⟨hmfd, ?_, ?_⟩
  · rw [hmfd]
    simp only [List.length_append, List.length_take, List.length_cons, List.length_nil]
    omega
  · rw [hmfd]
    apply containsPat_append_dots
    have hds : containsPat [' ', ' '] (normalizedText x) = false := by
      simp only [normalizedText, collapseSpaces]
      exact collapseLoopFuel_no_double _ _ le_rfl
    cases hT : containsPat [' ', ' '] ((normalizedText x).take 197)
    · rfl
    · exact absurd (containsPat_of_take _ 197 _ hT) (by simp [hds])

set_option maxRecDepth 20000 in
theorem minimize_truncates_long_witness :
    (200 < (normalizedText (List.replicate 250 'a')).length)
    ∧ (minimizeForDisplay (List.replicate 250 'a') =
          (normalizedText (List.replicate 250 'a')).take 197 ++ ['.', '.', '.']
      ∧ (minimizeForDisplay (List.replicate 250 'a')).length = 200
      ∧ containsPat [' ', ' '] (minimizeForDisplay (List.replicate 250 'a')) = false) :=
  ⟨by decide, minimize_truncates_long _ (by decide)⟩

/-! ## Dialogue Client request body and the Control State Machine

`SYSTEM_PROMPT` is the fixed behavioural preamble of the sketch (src lines
59-62, four concatenated C string literals); the apostrophe (code point 39)
it contains is spliced in explicitly. -/

def SYSTEM_PROMPT : List Char :=
  ("You are Jarvis, a helpful voice assistant. Be concise and polite. After receiving a user").data
    ++ [Char.ofNat 39]
    ++ ("s message, provide a clear answer, and then produce a short summary no longer than 200 characters suitable for display on a 128x64 OLED. If asked for code or long text, provide the essential steps only.").data

/-- The glue `"\nUser: "` that `loop` places between the preamble and the
transcript when building `fullPrompt` (src line 194). -/
def nlUserTag : List Char := ("\nUser: ").data

structure ChatMessage where
  role : List Char
  content : List Char
deriving DecidableEq

structure ChatRequestBody where
  model : List Char
  messages : List ChatMessage
deriving DecidableEq

/-- The JSON request body built by `askOpenAIChat prompt` (src lines
443-462): model identifier plus a two-entry messages array, system entry
carrying `SYSTEM_PROMPT`, user entry carrying the `prompt` argument. -/
def askOpenAIChatBody (prompt : List Char) : ChatRequestBody :=
  { model := ("gpt-3.5-turbo").data,
    messages := [ { role := ("system").data, content := SYSTEM_PROMPT },
                  { role := ("user").data, content := prompt } ] }

/-- The body the cycle sends for a given transcript: `loop` builds
`fullPrompt = String(SYSTEM_PROMPT) + "\nUser: " + transcript` (src line 194)
and calls `askOpenAIChat(fullPrompt)` (src line 195). -/
def chatBodyForTranscript (transcript : List Char) : ChatRequestBody :=
  askOpenAIChatBody (SYSTEM_PROMPT ++ nlUserTag ++ transcript)

/-! One pass of `loop` (src lines 169-221) as an event trace.  The
collaborator outcomes of the cycle are supplied by a `LoopEnv`: the initial
button poll, the result of `recordAudioWhileButtonHeld`, the transcript
returned by `deepgramTranscribe`, the reply returned by `askOpenAIChat`, and
whether `SD.exists(RECORDING_FILE)` holds at cleanup time. -/

inductive Event where
  | status (line1 line2 : List Char)
  | recordCall
  | transcribeCall
  | chatCall (prompt : List Char)
  | delayMs (ms : Nat)
  | removeFile
  | waitRelease
deriving DecidableEq

structure LoopEnv where
  buttonPressed : Bool
  recordOk : Bool
  transcript : List Char
  reply : List Char
  fileExists : Bool

/-- One invocation of `loop` (src lines 169-221), in program order: the
early `return` after a failed recording skips everything that follows it,
including the cooldown `delay(400)`, the release-confirmation wait and the
final `delay(50)` at the bottom of `loop`. -/
def loopIter (env : LoopEnv) : List Event :=
  if env.buttonPressed then
    Event.status ("Recording...").data ("Release to stop").data ::
    Event.recordCall ::
    (if env.recordOk = false then
      [Event.status ("Recording failed").data ("Try again").data,
       Event.delayMs 1500]
    else
      Event.status ("Processing...").data ("Please wait").data ::
      Event.transcribeCall ::
      ((if env.transcript.length = 0 then
          [Event.status ("No transcript").data ("Try again").data,
           Event.delayMs 1500]
        else
          [Event.chatCall (SYSTEM_PROMPT ++ nlUserTag ++ env.transcript),
           Event.status ("Jarvis:").data (minimizeForDisplay env.reply),
           Event.delayMs 5000] ++
          (if env.fileExists then [Event.removeFile] else []))
        ++ [Event.delayMs 400, Event.waitRelease,
            Event.status ("Ready").data ("Hold button to speak").data,
            Event.delayMs 50]))
  else [Event.delayMs 50]

/-- C7: a cycle whose transcription step returns the empty string shows the
failure notice and pauses, continues straight back to the ready/idle state,
and never calls the dialogue endpoint. -/
theorem empty_transcript_skips_chat (env : LoopEnv)
    (hb : env.buttonPressed = true) (hr : env.recordOk = true)
    (ht : env.transcript = []) :
    (∀ p, Event.chatCall p ∉ loopIter env)
    ∧ Event.status ("No transcript").data ("Try again").data ∈ loopIter env
    ∧ Event.delayMs 1500 ∈ loopIter env
    ∧ Event.status ("Ready").data ("Hold button to speak").data ∈ loopIter env := by
  refine ⟨?_, ?_, ?_, ?_⟩ <;> simp [loopIter, hb, hr, ht]

/-- Cycle outcome with an empty transcript, for the C7 witness. -/
def envC7 : LoopEnv :=
  { buttonPressed := true, recordOk := true, transcript := [],
    reply := [], fileExists := false }

theorem empty_transcript_skips_chat_witness :
    (envC7.buttonPressed = true)
    ∧ (envC7.recordOk = true)
    ∧ (envC7.transcript = [])
    ∧ ((∀ p, Event.chatCall p ∉ loopIter envC7)
      ∧ Event.status ("No transcript").data ("Try again").data ∈ loopIter envC7
      ∧ Event.delayMs 1500 ∈ loopIter envC7
      ∧ Event.status ("Ready").data ("Hold button to speak").data ∈ loopIter envC7) :=
  ⟨rfl, rfl, rfl, empty_transcript_skips_chat envC7 rfl rfl rfl⟩

set_option maxRecDepth 20000 in
/-- C8 counterexample: for the transcript "hi", the user-role entry of the
request body actually sent is not the transcript itself — `loop` prefixes it
with the behavioural preamble and "\nUser: " before passing it to
`askOpenAIChat`, so the preamble travels both as the system entry and inside
the user entry. -/
theorem chat_user_content_not_transcript :
    ((chatBodyForTranscript ['h', 'i']).messages.getD 1
        { role := [], content := [] }).content ≠ ['h', 'i'] := by
  decide

/-- C8 as amended: for every transcript, the request body has the fixed model
identifier and exactly two messages; the system entry content is exactly the
fixed behavioural preamble, and the user entry content is the preamble
followed by "\nUser: " followed by the transcript (not the bare
transcript). -/
theorem chat_body_structure (userText : List Char) :
    chatBodyForTranscript userText =
      { model := ("gpt-3.5-turbo").data,
        messages := [ { role := ("system").data, content := SYSTEM_PROMPT },
          { role := ("user").data,
            content := SYSTEM_PROMPT ++ nlUserTag ++ userText } ] } := rfl

/-- C9 as amended: the temporary recording file is removed exactly when the
capture succeeded, the transcript is non-empty and the file exists — the
removal does not depend on the dialogue reply, so a cycle whose dialogue
exchange failed (empty reply) still removes the file; it is left behind only
on capture failure or an empty transcript. -/
theorem remove_file_iff (env : LoopEnv) :
    Event.removeFile ∈ loopIter env ↔
      env.buttonPressed = true ∧ env.recordOk = true
      ∧ env.transcript ≠ [] ∧ env.fileExists = true := by
  cases hb : env.buttonPressed
  · simp [loopIter, hb]
  · cases hr : env.recordOk
    · simp [loopIter, hb, hr]
    · by_cases ht : env.transcript.length = 0
      · have ht' : env.transcript = [] := List.eq_nil_of_length_eq_zero ht
        simp [loopIter, hb, hr, ht']
      · have ht' : env.transcript ≠ [] := by
          intro h
          rw [h] at ht
          exact ht rfl
        cases hf : env.fileExists
        · simp [loopIter, hb, hr, ht, ht', hf]
        · simp [loopIter, hb, hr, ht, ht', hf]

/-- Cycle outcome with a failed dialogue exchange (empty reply) but a
non-empty transcript, for the C9 counterexample. -/
def envC9 : LoopEnv :=
  { buttonPressed := true, recordOk := true, transcript := ['h', 'i'],
    reply := [], fileExists := true }

/-- C9 counterexample: in a cycle whose dialogue exchange failed (the reply
is empty, the taxonomy's failure encoding), the temporary file is still
removed, contradicting that it is left behind on every failure cycle. -/
theorem remove_file_despite_failed_dialogue :
    envC9.reply = [] ∧ Event.removeFile ∈ loopIter envC9 := by
  constructor
  · rfl
  · simp [loopIter, envC9]

/-- C10: a failed capture takes the early-return fast path: the iteration
trace is exactly the recording notice, the capture call, the failure notice
and its pause — no cooldown `delay(400)` and no release-confirmation wait —
while every completed capture cycle does run both; and any next poll with
the control (still) held immediately enters a new recording phase. -/
theorem capture_failure_fast_path (env : LoopEnv)
    (hb : env.buttonPressed = true) (hr : env.recordOk = false) :
    loopIter env = [Event.status ("Recording...").data ("Release to stop").data,
      Event.recordCall,
      Event.status ("Recording failed").data ("Try again").data,
      Event.delayMs 1500]
    ∧ Event.delayMs 400 ∉ loopIter env
    ∧ Event.waitRelease ∉ loopIter env
    ∧ (∀ env2 : LoopEnv, env2.buttonPressed = true →
        Event.recordCall ∈ loopIter env2)
    ∧ (∀ env3 : LoopEnv, env3.buttonPressed = true → env3.recordOk = true →
        Event.delayMs 400 ∈ loopIter env3 ∧ Event.waitRelease ∈ loopIter env3) := by
  refine ⟨?_, ?_, ?_, ?_, ?_⟩
  · simp [loopIter, hb, hr]
  · simp [loopIter, hb, hr]
  · simp [loopIter, hb, hr]
  · intro env2 hb2
    by_cases hr2 : env2.recordOk = false
    · simp [loopIter, hb2, hr2]
    · by_cases ht2 : env2.transcript.length = 0
      · simp [loopIter, hb2, hr2, ht2]
      · cases hf2 : env2.fileExists
        · simp [loopIter, hb2, hr2, ht2, hf2]
        · simp [loopIter, hb2, hr2, ht2, hf2]
  · intro env3 hb3 hr3
    have hr3' : (env3.recordOk = false) = False := by
      simp [hr3]
    by_cases ht3 : env3.transcript.length = 0
    · simp [loopIter, hb3, hr3', ht3]
    · cases hf3 : env3.fileExists
      · simp [loopIter, hb3, hr3', ht3, hf3]
      · simp [loopIter, hb3, hr3', ht3, hf3]

/-- Cycle outcome with a failed capture, for the C10 witness. -/
def envC10 : LoopEnv :=
  { buttonPressed := true, recordOk := false, transcript := [],
    reply := [], fileExists := false }

theorem capture_failure_fast_path_witness :
    (envC10.buttonPressed = true) ∧ (envC10.recordOk = false) ∧
    (loopIter envC10 = [Event.status ("Recording...").data ("Release to stop").data,
        Event.recordCall,
        Event.status ("Recording failed").data ("Try again").data,
        Event.delayMs 1500]
      ∧ Event.delayMs 400 ∉ loopIter envC10
      ∧ Event.waitRelease ∉ loopIter envC10
      ∧ (∀ env2 : LoopEnv, env2.buttonPressed = true →
          Event.recordCall ∈ loopIter env2)
      ∧ (∀ env3 : LoopEnv, env3.buttonPressed = true → env3.recordOk = true →
          Event.delayMs 400 ∈ loopIter env3 ∧ Event.waitRelease ∈ loopIter env3)) :=
  ⟨rfl, rfl, capture_failure_fast_path envC10 rfl rfl⟩
